import Mathlib

set_option autoImplicit false

/-!
Verification of `llama_index/objects/base_node_mapping.py`: the
`BaseObjectNodeMapping` contract and the `SimpleObjectNodeMapping`
strategy (hash-keyed table, text-node conversion, pickle persistence).
Python objects are abstract; `str` and `hash` are abstract functions
(`strFn`, `hashFn`), used only through their determinism, which is what
the module itself relies on.
-/

namespace LlamaObjects

/-- Modelled from the spec: `MetadataMode` from `llama_index.schema` (an
external collaborator, not among the embedded sources); this core always
uses `NONE`, which strips metadata. -/
inductive MetadataMode where
  | NONE
  | ALL
  deriving DecidableEq, Repr

/-- Modelled from the spec: `TextNode` from `llama_index.schema`, an
external text-bearing node constructed with a string `text` field plus
optional metadata. -/
structure TextNode where
  text : String
  metadata : List (String × String) := []
  deriving DecidableEq, Repr

/-- Modelled from the spec: `get_content(metadata_mode)` returns the text
with metadata either included or stripped; `NONE` strips metadata and
returns exactly the text payload. -/
def TextNode.get_content (n : TextNode) (mode : MetadataMode) : String :=
  match mode with
  | MetadataMode.NONE => n.text
  | MetadataMode.ALL =>
    String.join (n.metadata.map (fun p => p.1 ++ ": " ++ p.2 ++ "\n")) ++ n.text

/-- Errors of the Python `pickle` module: subclasses of
`pickle.PickleError` (`PicklingError` from `dump`, `UnpicklingError`
from `load`). -/
inductive PickleErr where
  | picklingError (msg : String)
  | unpicklingError (msg : String)
  deriving DecidableEq, Repr

/-- Python exceptions observable from this module: `KeyError` from the
dict lookup in `_from_node`; `ValueError` as raised by `persist` and
`from_persist_dir`, carrying the pickle error attached as its cause
(`raise ... from err`); `FileNotFoundError` from `open` on an absent
file, which is not a `pickle.PickleError` and hence is never converted
to `ValueError`. -/
inductive PyErr where
  | keyError (key : Int)
  | valueError (msg : String) (cause : Option PickleErr)
  | fileNotFoundError (path : String)
  deriving DecidableEq, Repr

/-- The SerializationFailure of the spec is the `ValueError` these
methods raise; a `KeyError` or `FileNotFoundError` is not one. -/
def PyErr.isSerializationFailure : PyErr → Bool
  | PyErr.valueError _ _ => true
  | _ => false

/-- A Python `dict` keyed by `int`, as an insertion-ordered association
list with unique keys. -/
abbrev Table (Obj : Type) : Type := List (Int × Obj)

/-- Python dict assignment `d[k] = v`: replaces the value in place when
the key is already present, otherwise appends the new binding at the
end. -/
def dictInsert {Obj : Type} : Table Obj → Int → Obj → Table Obj
  | [], k, v => [(k, v)]
  | (k', v') :: rest, k, v =>
    if k' = k then (k, v) :: rest else (k', v') :: dictInsert rest k v

/-- Python dict lookup `d[k]`, as an option: `none` models the
`KeyError` path. -/
def dictGet {Obj : Type} : Table Obj → Int → Option Obj
  | [], _ => none
  | (k', v') :: rest, k => if k' = k then some v' else dictGet rest k

/-- Contents of a persisted file in the model: either a well-formed
pickle of a table, or bytes that `pickle.load` rejects (also the residue
of a write that failed midway). -/
inductive FileData (Obj : Type) where
  | pickled (t : Table Obj)
  | corrupt
  deriving DecidableEq

/-- Modelled from the spec: the file system the storage layer writes
through, a map from paths to file contents. -/
abbrev FS (Obj : Type) : Type := List (String × FileData Obj)

/-- Reading the file at `path`; `none` models the absent-file case in
which `open(path, "rb")` raises `FileNotFoundError`. -/
def fsRead {Obj : Type} : FS Obj → String → Option (FileData Obj)
  | [], _ => none
  | (p, d) :: rest, path => if p = path then some d else fsRead rest path

/-- Writing (or overwriting) the file at `path`, as `open(path, "wb")`
followed by a write does. -/
def fsWrite {Obj : Type} : FS Obj → String → FileData Obj → FS Obj
  | [], path, d => [(path, d)]
  | (p, d') :: rest, path, d =>
    if p = path then (path, d) :: rest else (p, d') :: fsWrite rest path d

/-- Modelled from the spec: `concat_dirs` from `llama_index.utils` (not
among the embedded sources) joins directory and filename with exactly
one separator, whether or not the directory already ends in one. -/
def concat_dirs (dirname fname : String) : String :=
  if dirname.data.getLast? = some '/' then dirname ++ fname
  else dirname ++ "/" ++ fname

/-- Modelled from the spec: `pickle.dump` writes the binary,
language-native serialization of the table, failing with a
`pickle.PicklingError` when some contained object is not picklable;
which objects are picklable is a property of the objects, abstracted
as the predicate `picklable`. -/
def pickleDump {Obj : Type} (picklable : Obj → Bool) (t : Table Obj) :
    Except PickleErr (FileData Obj) :=
  if t.all (fun p => picklable p.2) then Except.ok (FileData.pickled t)
  else Except.error (PickleErr.picklingError "cannot pickle object")

/-- Modelled from the spec: `pickle.load` recovers the table from a
well-formed pickle and fails with an `UnpicklingError` on corrupt
bytes. -/
def pickleLoad {Obj : Type} : FileData Obj → Except PickleErr (Table Obj)
  | FileData.pickled t => Except.ok t
  | FileData.corrupt => Except.error (PickleErr.unpicklingError "could not load")

namespace BaseObjectNodeMapping

/-- Embeds `BaseObjectNodeMapping.add_object` (lines 35-43):
`self.validate_object(obj)` then `self._add_object(obj)`. The instance
state is abstract (`St`), as are the subclass's validation hook and
insertion primitive; the result pairs the final state with the raised
exception, if any. -/
def add_object {Obj St E : Type} (validate : Obj → Except E Unit)
    (addPrim : St → Obj → St) (s : St) (o : Obj) : St × Option E :=
  match validate o with
  | Except.error e => (s, some e)
  | Except.ok _ => (addPrim s o, none)

end BaseObjectNodeMapping

namespace SimpleObjectNodeMapping

/-- Embeds the inherited default `validate_object` (lines 32-33): a
no-op hook that never raises. `SimpleObjectNodeMapping` does not
override it. -/
def validate_object {Obj : Type} (_o : Obj) : Except PyErr Unit := Except.ok ()

/-- Embeds `__init__` (lines 102-106): `objs = objs or []`; each object
passes the default no-op `validate_object`; the table is the dict
comprehension keyed by `hash(str(obj))`, later entries overwriting
earlier ones with the same key. -/
def initObjs {Obj : Type} (strFn : Obj → String) (hashFn : String → Int)
    (objs : List Obj) : Table Obj :=
  objs.foldl (fun t o => dictInsert t (hashFn (strFn o)) o) []

/-- Embeds `_add_object` (lines 122-123):
`self._objs[hash(str(obj))] = obj`. -/
def _add_object {Obj : Type} (strFn : Obj → String) (hashFn : String → Int)
    (t : Table Obj) (o : Obj) : Table Obj :=
  dictInsert t (hashFn (strFn o)) o

/-- Successive `add_object` calls (lines 35-43, with the inherited no-op
validator): a fold of `_add_object` over the added objects. -/
def addObjects {Obj : Type} (strFn : Obj → String) (hashFn : String → Int)
    (t : Table Obj) (objs : List Obj) : Table Obj :=
  objs.foldl (fun t o => _add_object strFn hashFn t o) t

/-- Embeds `to_node` (lines 125-126): `TextNode(text=str(obj))`, no
metadata attached. -/
def to_node {Obj : Type} (strFn : Obj → String) (o : Obj) : TextNode :=
  { text := strFn o }

/-- Embeds `_from_node` (lines 128-129):
`self._objs[hash(node.get_content(metadata_mode=MetadataMode.NONE))]`;
a missing key raises `KeyError`. -/
def _from_node {Obj : Type} (hashFn : String → Int)
    (t : Table Obj) (n : TextNode) : Except PyErr Obj :=
  match dictGet t (hashFn (n.get_content MetadataMode.NONE)) with
  | some v => Except.ok v
  | none => Except.error (PyErr.keyError (hashFn (n.get_content MetadataMode.NONE)))

/-- Embeds the inherited `from_node` (lines 61-65):
`obj = self._from_node(node)`, then `self.validate_object(obj)` (the
no-op default), then `return obj`. -/
def from_node {Obj : Type} (hashFn : String → Int)
    (t : Table Obj) (n : TextNode) : Except PyErr Obj :=
  match _from_node hashFn t n with
  | Except.error e => Except.error e
  | Except.ok obj =>
    match validate_object obj with
    | Except.error e => Except.error e
    | Except.ok _ => Except.ok obj

/-- Embeds `persist` (lines 131-148) over the file-system model: builds
the path with `concat_dirs`, opens the file for writing and pickles
`self._objs` into it; a `pickle.PickleError` from the serializer is
re-raised as `ValueError("Objs is not pickleable")` with the cause
attached, the partially written file remaining as corrupt data.
Directory creation (`os.makedirs`) has no further observable effect in
this model. -/
def persist {Obj : Type} (picklable : Obj → Bool) (t : Table Obj) (fs : FS Obj)
    (persist_dir fname : String) : FS Obj × Option PyErr :=
  match pickleDump picklable t with
  | Except.ok data => (fsWrite fs (concat_dirs persist_dir fname) data, none)
  | Except.error e =>
    (fsWrite fs (concat_dirs persist_dir fname) FileData.corrupt,
      some (PyErr.valueError "Objs is not pickleable" (some e)))

/-- Embeds `from_persist_dir` (lines 150-165): builds the path with
`concat_dirs`, opens the file (an absent file raises
`FileNotFoundError`, which the `except pickle.PickleError` clause does
not catch) and unpickles it; a `pickle.PickleError` is re-raised as
`ValueError("Objs cannot be loaded.")` with the cause attached; on
success a fresh mapping is built (`cls(None)`) and its table replaced
wholesale by the loaded one. -/
def from_persist_dir {Obj : Type} (fs : FS Obj) (persist_dir fname : String) :
    Except PyErr (Table Obj) :=
  match fsRead fs (concat_dirs persist_dir fname) with
  | none => Except.error (PyErr.fileNotFoundError (concat_dirs persist_dir fname))
  | some data =>
    match pickleLoad data with
    | Except.error e => Except.error (PyErr.valueError "Objs cannot be loaded." (some e))
    | Except.ok t => Except.ok t

/-- State-passing form of `to_node`: the method body
`TextNode(text=str(obj))` neither reads nor writes `self._objs`, so the
table passes through unchanged. -/
def to_node_run {Obj : Type} (strFn : Obj → String)
    (t : Table Obj) (o : Obj) : Table Obj × TextNode :=
  (t, to_node strFn o)

/-- State-passing form of the inherited `from_node`: its body only reads
`self._objs` (inside `_from_node`) and never assigns it. -/
def from_node_run {Obj : Type} (hashFn : String → Int)
    (t : Table Obj) (n : TextNode) : Table Obj × Except PyErr Obj :=
  (t, from_node hashFn t n)

/-- The last object of a registration sequence whose key is `k`: the
entry a sequence of Python dict writes leaves at key `k`. -/
def lastKeyed {Obj : Type} (strFn : Obj → String) (hashFn : String → Int) :
    List Obj → Int → Option Obj
  | [], _ => none
  | o :: rest, k =>
    match lastKeyed strFn hashFn rest k with
    | some v => some v
    | none => if hashFn (strFn o) = k then some o else none

end SimpleObjectNodeMapping

/-- A concrete instantiation of the abstract string hash, used to
evaluate the development on concrete inputs. -/
def demoHash (s : String) : Int := Int.ofNat s.length

/-! ## Dictionary lemmas -/

theorem dictGet_dictInsert_self {Obj : Type} (t : Table Obj) (k : Int) (v : Obj) :
    dictGet (dictInsert t k v) k = some v := by
  induction t with
  | nil => simp [dictInsert, dictGet]
  | cons p rest ih =>
    obtain ⟨k', v'⟩ := p
    by_cases h : k' = k
    · simp [dictInsert, dictGet, h]
    · simp [dictInsert, dictGet, h, ih]

theorem dictGet_dictInsert_ne {Obj : Type} (t : Table Obj) (k k' : Int) (v : Obj)
    (h : k' ≠ k) : dictGet (dictInsert t k v) k' = dictGet t k' := by
  induction t with
  | nil =>
    simp only [dictInsert, dictGet, if_neg (Ne.symm h)]
  | cons p rest ih =>
    obtain ⟨k₀, v₀⟩ := p
    by_cases h₀ : k₀ = k
    · subst h₀
      simp only [dictInsert, if_pos rfl, dictGet, if_neg (Ne.symm h)]
    · simp only [dictInsert, if_neg h₀, dictGet, ih]

theorem mem_dictInsert {Obj : Type} (t : Table Obj) (k : Int) (v : Obj)
    (p : Int × Obj) (hp : p ∈ dictInsert t k v) : p = (k, v) ∨ p ∈ t := by
  induction t with
  | nil =>
    simp [dictInsert] at hp
    exact Or.inl hp
  | cons q rest ih =>
    obtain ⟨k₀, v₀⟩ := q
    by_cases h : k₀ = k
    · simp only [dictInsert, h, if_pos rfl] at hp
      rcases List.mem_cons.mp hp with h₁ | h₁
      · exact Or.inl h₁
      · exact Or.inr (List.mem_cons_of_mem _ h₁)
    · simp only [dictInsert, h, if_neg h] at hp
      rcases List.mem_cons.mp hp with h₁ | h₁
      · exact Or.inr (h₁ ▸ List.mem_cons_self _ _)
      · rcases ih h₁ with h₂ | h₂
        · exact Or.inl h₂
        · exact Or.inr (List.mem_cons_of_mem _ h₂)

/-! ## Registration-sequence lemmas -/

namespace SimpleObjectNodeMapping

theorem dictGet_foldl_insert {Obj : Type} (strFn : Obj → String) (hashFn : String → Int)
    (objs : List Obj) (t : Table Obj) (k : Int) :
    dictGet (objs.foldl (fun t o => dictInsert t (hashFn (strFn o)) o) t) k =
      match lastKeyed strFn hashFn objs k with
      | some v => some v
      | none => dictGet t k := by
  induction objs generalizing t with
  | nil => simp [lastKeyed]
  | cons o rest ih =>
    simp only [List.foldl_cons, lastKeyed]
    rw [ih]
    cases hrest : lastKeyed strFn hashFn rest k with
    | some v => simp
    | none =>
      by_cases hk : hashFn (strFn o) = k
      · subst hk
        simp [dictGet_dictInsert_self]
      · simp [hk, dictGet_dictInsert_ne _ _ _ _ (fun hh => hk hh.symm)]

theorem dictGet_initObjs {Obj : Type} (strFn : Obj → String) (hashFn : String → Int)
    (objs : List Obj) (k : Int) :
    dictGet (initObjs strFn hashFn objs) k = lastKeyed strFn hashFn objs k := by
  rw [initObjs, dictGet_foldl_insert]
  cases lastKeyed strFn hashFn objs k <;> simp [dictGet]

theorem addObjects_initObjs {Obj : Type} (strFn : Obj → String) (hashFn : String → Int)
    (init adds : List Obj) :
    addObjects strFn hashFn (initObjs strFn hashFn init) adds =
      initObjs strFn hashFn (init ++ adds) := by
  simp [addObjects, initObjs, _add_object, List.foldl_append]

theorem lastKeyed_mem_key {Obj : Type} (strFn : Obj → String) (hashFn : String → Int)
    (objs : List Obj) (k : Int) (v : Obj)
    (h : lastKeyed strFn hashFn objs k = some v) :
    v ∈ objs ∧ hashFn (strFn v) = k := by
  induction objs with
  | nil => simp [lastKeyed] at h
  | cons o rest ih =>
    simp only [lastKeyed] at h
    cases hrest : lastKeyed strFn hashFn rest k with
    | some w =>
      rw [hrest] at h
      cases h
      obtain ⟨hw, hk⟩ := ih hrest
      exact ⟨List.mem_cons_of_mem _ hw, hk⟩
    | none =>
      rw [hrest] at h
      by_cases hk : hashFn (strFn o) = k
      · rw [if_pos hk] at h
        cases h
        exact ⟨List.mem_cons_self _ _, hk⟩
      · rw [if_neg hk] at h
        cases h

theorem lastKeyed_of_mem {Obj : Type} (strFn : Obj → String) (hashFn : String → Int)
    (objs : List Obj) (o : Obj) (ho : o ∈ objs) :
    ∃ v, lastKeyed strFn hashFn objs (hashFn (strFn o)) = some v := by
  induction objs with
  | nil => cases ho
  | cons a rest ih =>
    simp only [lastKeyed]
    cases hrest : lastKeyed strFn hashFn rest (hashFn (strFn o)) with
    | some w => exact ⟨w, rfl⟩
    | none =>
      rcases List.mem_cons.mp ho with h | h
      · subst h
        simp
      · obtain ⟨v, hv⟩ := ih h
        rw [hv] at hrest
        cases hrest

theorem fsRead_fsWrite_self {Obj : Type} (fs : FS Obj) (path : String) (d : FileData Obj) :
    fsRead (fsWrite fs path d) path = some d := by
  induction fs with
  | nil => simp [fsWrite, fsRead]
  | cons p rest ih =>
    obtain ⟨q, d'⟩ := p
    by_cases h : q = path
    · simp [fsWrite, fsRead, h]
    · simp [fsWrite, fsRead, h, ih]

theorem table_inv_foldl {Obj : Type} (strFn : Obj → String) (hashFn : String → Int)
    (objs : List Obj) (t : Table Obj)
    (ht : ∀ p ∈ t, p.1 = hashFn (strFn p.2)) :
    ∀ p ∈ objs.foldl (fun t o => dictInsert t (hashFn (strFn o)) o) t,
      p.1 = hashFn (strFn p.2) := by
  induction objs generalizing t with
  | nil => exact ht
  | cons o rest ih =>
    simp only [List.foldl_cons]
    refine ih _ ?_
    intro p hp
    rcases mem_dictInsert _ _ _ _ hp with h | h
    · subst h
      rfl
    · exact ht p h

theorem lastKeyed_append {Obj : Type} (strFn : Obj → String) (hashFn : String → Int)
    (l₁ l₂ : List Obj) (k : Int) :
    lastKeyed strFn hashFn (l₁ ++ l₂) k =
      match lastKeyed strFn hashFn l₂ k with
      | some v => some v
      | none => lastKeyed strFn hashFn l₁ k := by
  induction l₁ with
  | nil =>
    simp only [List.nil_append]
    cases h₂ : lastKeyed strFn hashFn l₂ k with
    | some v => simp
    | none => simp [lastKeyed]
  | cons a rest ih =>
    simp only [List.cons_append, lastKeyed, List.append_eq]
    rw [ih]
    cases h₂ : lastKeyed strFn hashFn l₂ k with
    | some v => simp
    | none =>
      cases h₃ : lastKeyed strFn hashFn rest k with
      | some w => simp
      | none => simp

theorem lastKeyed_concat_self {Obj : Type} (strFn : Obj → String) (hashFn : String → Int)
    (l : List Obj) (b : Obj) (k : Int) (hk : hashFn (strFn b) = k) :
    lastKeyed strFn hashFn (l ++ [b]) k = some b := by
  rw [lastKeyed_append]
  simp [lastKeyed, hk]

/-! ## Claim theorems -/

/-- C1: an object `o` registered through construction (`init`) or
successive `add_object` calls (`adds`), such that no other registered
object's string form hashes to `o`'s key, is recovered exactly by
`from_node` applied to `to_node o`. -/
theorem round_trip {Obj : Type} (strFn : Obj → String) (hashFn : String → Int)
    (init adds : List Obj) (o : Obj)
    (ho : o ∈ init ++ adds)
    (huniq : ∀ o' ∈ init ++ adds, hashFn (strFn o') = hashFn (strFn o) → o' = o) :
    from_node hashFn (addObjects strFn hashFn (initObjs strFn hashFn init) adds)
      (to_node strFn o) = Except.ok o := by
  rw [addObjects_initObjs]
  have hget : dictGet (initObjs strFn hashFn (init ++ adds)) (hashFn (strFn o)) = some o := by
    rw [dictGet_initObjs]
    obtain ⟨v, hv⟩ := lastKeyed_of_mem strFn hashFn _ o ho
    obtain ⟨hmem, hkey⟩ := lastKeyed_mem_key strFn hashFn _ _ _ hv
    rw [hv, huniq v hmem hkey]
  simp [from_node, _from_node, to_node, TextNode.get_content, hget, validate_object]

/-- Witness for `round_trip` at a concrete input. -/
theorem round_trip_witness :
    from_node demoHash
      (addObjects id demoHash (initObjs id demoHash ["a"]) ["bb"])
      (to_node id "a") = Except.ok "a" :=
  round_trip id demoHash ["a"] ["bb"] "a" (by decide) (by decide)

/-- C2: persisting a table whose objects the serializer can all encode
and loading from the same directory and filename succeeds and yields a
table whose `from_node` behavior agrees with the original's on every
node. -/
theorem persist_load_roundtrip {Obj : Type} (hashFn : String → Int)
    (picklable : Obj → Bool) (t : Table Obj) (fs : FS Obj) (dir fname : String)
    (hp : t.all (fun p => picklable p.2) = true) :
    (persist picklable t fs dir fname).2 = none ∧
    ∃ t', from_persist_dir (persist picklable t fs dir fname).1 dir fname = Except.ok t' ∧
      ∀ n : TextNode, from_node hashFn t' n = from_node hashFn t n := by
  have hdump : pickleDump picklable t = Except.ok (FileData.pickled t) := by
    simp [pickleDump, hp]
  refine ⟨by simp [persist, hdump], t, ?_, fun n => rfl⟩
  simp [persist, hdump, from_persist_dir, fsRead_fsWrite_self, pickleLoad]

/-- Witness for `persist_load_roundtrip` at a concrete input. -/
theorem persist_load_roundtrip_witness :
    (persist (fun _ : String => true) [(1, "a")] [] "dir" "f.pickle").2 = none ∧
    ∃ t', from_persist_dir
        (persist (fun _ : String => true) [(1, "a")] [] "dir" "f.pickle").1
        "dir" "f.pickle" = Except.ok t' ∧
      ∀ n : TextNode, from_node demoHash t' n = from_node demoHash [(1, "a")] n :=
  persist_load_roundtrip demoHash (fun _ => true) [(1, "a")] [] "dir" "f.pickle" (by decide)

/-- C3: registering two distinct objects with identical string forms —
through the construction sequence or through successive `add_object`
calls, which build the same table (first conjunct) — leaves only the
later one retrievable under the shared key; the earlier entry is
silently overwritten. -/
theorem last_write_wins {Obj : Type} (strFn : Obj → String) (hashFn : String → Int)
    (pre mid : List Obj) (a b : Obj)
    (hab : a ≠ b) (hstr : strFn a = strFn b) :
    addObjects strFn hashFn (initObjs strFn hashFn pre) (a :: (mid ++ [b])) =
      initObjs strFn hashFn (pre ++ a :: (mid ++ [b])) ∧
    dictGet (initObjs strFn hashFn (pre ++ a :: (mid ++ [b]))) (hashFn (strFn a)) = some b ∧
    dictGet (initObjs strFn hashFn (pre ++ a :: (mid ++ [b]))) (hashFn (strFn a)) ≠ some a := by
  have hform : pre ++ a :: (mid ++ [b]) = (pre ++ a :: mid) ++ [b] := by simp
  have hget : dictGet (initObjs strFn hashFn (pre ++ a :: (mid ++ [b])))
      (hashFn (strFn a)) = some b := by
    rw [dictGet_initObjs, hform, lastKeyed_concat_self]
    rw [hstr]
  refine ⟨addObjects_initObjs strFn hashFn pre (a :: (mid ++ [b])), hget, ?_⟩
  rw [hget]
  intro hcontra
  exact hab (Option.some.inj hcontra).symm

/-- Witness for `last_write_wins` at a concrete input. -/
theorem last_write_wins_witness :
    addObjects (fun _ : Nat => "x") demoHash
        (initObjs (fun _ : Nat => "x") demoHash []) (1 :: ([] ++ [2])) =
      initObjs (fun _ : Nat => "x") demoHash ([] ++ 1 :: ([] ++ [2])) ∧
    dictGet (initObjs (fun _ : Nat => "x") demoHash ([] ++ 1 :: ([] ++ [2])))
        (demoHash ((fun _ : Nat => "x") 1)) = some 2 ∧
    dictGet (initObjs (fun _ : Nat => "x") demoHash ([] ++ 1 :: ([] ++ [2])))
        (demoHash ((fun _ : Nat => "x") 1)) ≠ some 1 :=
  last_write_wins (fun _ => "x") demoHash [] [] 1 2 (by decide) rfl

/-- C4: `from_node` on a node whose metadata-excluded content has no
table entry under its hash raises `KeyError` (the missing-key
LookupFailure); on a node whose content was registered it returns an
object, so no such failure occurs. -/
theorem from_node_lookup {Obj : Type} (strFn : Obj → String) (hashFn : String → Int)
    (t : Table Obj) (init adds : List Obj) (n : TextNode) :
    (dictGet t (hashFn (n.get_content MetadataMode.NONE)) = none →
      from_node hashFn t n =
        Except.error (PyErr.keyError (hashFn (n.get_content MetadataMode.NONE)))) ∧
    ((∃ o, o ∈ init ++ adds ∧ strFn o = n.get_content MetadataMode.NONE) →
      ∃ v, from_node hashFn (addObjects strFn hashFn (initObjs strFn hashFn init) adds) n
          = Except.ok v) := by
  constructor
  · intro h
    simp [from_node, _from_node, h]
  · rintro ⟨o, ho, hs⟩
    rw [addObjects_initObjs]
    obtain ⟨v, hv⟩ := lastKeyed_of_mem strFn hashFn _ o ho
    rw [hs] at hv
    refine ⟨v, ?_⟩
    simp [from_node, _from_node, dictGet_initObjs, hv, validate_object]

/-- C5: when the table holds at least one object the pickle format
cannot encode, `persist` raises the SerializationFailure
`ValueError("Objs is not pickleable")` with the pickling error attached
as its cause. -/
theorem persist_unpicklable {Obj : Type} (picklable : Obj → Bool)
    (t : Table Obj) (fs : FS Obj) (dir fname : String)
    (hbad : ∃ p ∈ t, picklable p.2 = false) :
    (persist picklable t fs dir fname).2 =
      some (PyErr.valueError "Objs is not pickleable"
        (some (PickleErr.picklingError "cannot pickle object"))) ∧
    PyErr.isSerializationFailure
      (PyErr.valueError "Objs is not pickleable"
        (some (PickleErr.picklingError "cannot pickle object"))) = true := by
  obtain ⟨p, hp, hfalse⟩ := hbad
  have hall : t.all (fun q => picklable q.2) = false := by
    rw [List.all_eq_false]
    exact ⟨p, hp, by simp [hfalse]⟩
  exact ⟨by simp [persist, pickleDump, hall], rfl⟩

/-- Witness for `persist_unpicklable` at a concrete input. -/
theorem persist_unpicklable_witness :
    (persist (fun _ : String => false) [(0, "x")] [] "d" "f").2 =
      some (PyErr.valueError "Objs is not pickleable"
        (some (PickleErr.picklingError "cannot pickle object"))) ∧
    PyErr.isSerializationFailure
      (PyErr.valueError "Objs is not pickleable"
        (some (PickleErr.picklingError "cannot pickle object"))) = true :=
  persist_unpicklable (fun _ => false) [(0, "x")] [] "d" "f" ⟨(0, "x"), by simp, rfl⟩

/-- C6 counterexample: loading from a directory and filename naming an
absent file raises `FileNotFoundError`, which is not the
SerializationFailure `ValueError` — the `except pickle.PickleError`
clause does not catch errors from `open`. -/
theorem from_persist_dir_missing_file_cex :
    from_persist_dir ([] : FS String) "dir" "f.pickle" =
      Except.error (PyErr.fileNotFoundError "dir/f.pickle") ∧
    PyErr.isSerializationFailure (PyErr.fileNotFoundError "dir/f.pickle") = false := by
  exact ⟨rfl, rfl⟩

/-- C6 (amended): `from_persist_dir` on an absent file raises the
underlying `FileNotFoundError` unwrapped, not a SerializationFailure;
contents that fail to unpickle with a `pickle.PickleError` are re-raised
as the SerializationFailure `ValueError("Objs cannot be loaded.")` with
the cause attached. -/
theorem from_persist_dir_error_kinds {Obj : Type} (fs : FS Obj) (dir fname : String) :
    (fsRead fs (concat_dirs dir fname) = none →
      from_persist_dir fs dir fname =
          Except.error (PyErr.fileNotFoundError (concat_dirs dir fname)) ∧
        PyErr.isSerializationFailure
          (PyErr.fileNotFoundError (concat_dirs dir fname)) = false) ∧
    (fsRead fs (concat_dirs dir fname) = some FileData.corrupt →
      from_persist_dir fs dir fname =
          Except.error (PyErr.valueError "Objs cannot be loaded."
            (some (PickleErr.unpicklingError "could not load"))) ∧
        PyErr.isSerializationFailure
          (PyErr.valueError "Objs cannot be loaded."
            (some (PickleErr.unpicklingError "could not load"))) = true) := by
  constructor
  · intro h
    exact ⟨by simp [from_persist_dir, h], rfl⟩
  · intro h
    exact ⟨by simp [from_persist_dir, h, pickleLoad], rfl⟩

/-- C7: every entry of a table reached through construction plus
`add_object` calls has key `hash(str(object))`, and `_add_object`
preserves this invariant from any table satisfying it. -/
theorem table_key_invariant {Obj : Type} (strFn : Obj → String) (hashFn : String → Int)
    (init adds : List Obj) :
    (∀ p ∈ addObjects strFn hashFn (initObjs strFn hashFn init) adds,
        p.1 = hashFn (strFn p.2)) ∧
    (∀ (t : Table Obj) (o : Obj), (∀ p ∈ t, p.1 = hashFn (strFn p.2)) →
        ∀ p ∈ _add_object strFn hashFn t o, p.1 = hashFn (strFn p.2)) := by
  constructor
  · rw [addObjects_initObjs]
    exact table_inv_foldl strFn hashFn _ [] (by intro p hp; cases hp)
  · intro t o ht p hp
    rcases mem_dictInsert _ _ _ _ hp with h | h
    · subst h
      rfl
    · exact ht p h

/-- C8: `to_node` is deterministic — its node is a function of the
object's string form alone: the node text equals `str(obj)`, and equal
string forms give identical nodes. -/
theorem to_node_deterministic {Obj : Type} (strFn : Obj → String) (o o' : Obj) :
    (to_node strFn o).text = strFn o ∧
    (to_node strFn o).get_content MetadataMode.NONE = strFn o ∧
    (strFn o' = strFn o → to_node strFn o' = to_node strFn o) := by
  refine ⟨rfl, rfl, fun h => ?_⟩
  simp [to_node, h]

/-- C9: when the validation hook rejects `o`, `add_object` raises that
error and returns the state unchanged — validation runs strictly before
the insertion primitive, so a failed add is atomic. -/
theorem add_object_validation_atomic {Obj St E : Type}
    (validate : Obj → Except E Unit) (addPrim : St → Obj → St)
    (s : St) (o : Obj) (e : E) (h : validate o = Except.error e) :
    BaseObjectNodeMapping.add_object validate addPrim s o = (s, some e) := by
  simp [BaseObjectNodeMapping.add_object, h]

/-- Witness for `add_object_validation_atomic`: a validator that rejects
everything leaves a `SimpleObjectNodeMapping` table untouched. -/
theorem add_object_validation_atomic_witness :
    BaseObjectNodeMapping.add_object
        (fun _ : String => Except.error (PyErr.valueError "invalid object" none))
        (_add_object id demoHash) [(1, "a")] "x" =
      ([(1, "a")], some (PyErr.valueError "invalid object" none)) :=
  add_object_validation_atomic _ _ _ _ _ rfl

/-- C10: neither `to_node` nor `from_node` modifies the table; in
particular `to_node` on an unregistered object succeeds with its text
node without registering the object, so a subsequent `from_node` on
that node still raises `KeyError`. -/
theorem to_node_from_node_frame {Obj : Type} (strFn : Obj → String) (hashFn : String → Int)
    (t : Table Obj) (o : Obj) (n : TextNode) :
    (to_node_run strFn t o).1 = t ∧
    (from_node_run hashFn t n).1 = t ∧
    (to_node_run strFn t o).2 = to_node strFn o ∧
    (dictGet t (hashFn (strFn o)) = none →
      (from_node_run hashFn ((to_node_run strFn t o).1) ((to_node_run strFn t o).2)).2 =
        Except.error (PyErr.keyError (hashFn (strFn o)))) := by
  refine ⟨rfl, rfl, rfl, fun h => ?_⟩
  simp [to_node_run, from_node_run, from_node, _from_node, to_node, TextNode.get_content, h]

end SimpleObjectNodeMapping

end LlamaObjects
